import Mathlib

/-!
# Verification of the math-parser specification

A shallow embedding of the Doenet math-parser (TypeScript) sufficient to
settle the frozen claims.  The embedding follows the source files:

* `src/ts/ast/Node.ts`, `src/ts/ast/Op.ts`, `src/ts/ast/Rel.ts`,
  `src/ts/ast/Group.ts`, `src/ts/ast/Func.ts`, `src/ts/ast/Name.ts`,
  `src/ts/ast/Num.ts` — the AST node model (`Ast`, `astToString`,
  `addParens`, `astToJSON`/`astFromJSON`);
* `src/ts/Stack.ts` — the negotiation dispatch (`stackPush`);
* `src/ts/token/Operator.ts`, `src/ts/token/Relation.ts`,
  `src/ts/token/Delimiter.ts`, `src/ts/token/Operand.ts`,
  `src/ts/token/Tree.ts` — a fuel-indexed operational model of the
  stack engine for the operator/relation/delimiter fragment (`pushT`,
  `closeLoop`, `runParse`);
* `src/ts/token/Apply.ts` (`Power.tree`), `src/ts/token/OpTokens.ts`
  (`UnaryMinus.tree`) — the local tree-construction rules; and
* `src/ts/Parser.ts` (`getNamePattern`) — the literal-name comparator.

JavaScript numbers only ever hold integral values in the situations the
claims exercise; numeric values are modelled as rationals (`ℚ`), whose
rendering agrees with JavaScript `String(n)` on integers.  The
function-application subsystem (ApplyPending/ApplyOp markers and
`applyData` propagation) is outside the modelled fragment; branches of
the engine that would enter it are marked with the `offModel` error and
are never exercised by the theorems below.
-/

/-- Operator associativity (`'left'`/`'right'` strings in the source). -/
inductive Assoc where
  | left
  | right
deriving DecidableEq, Repr

/-- The fields an `Op` AST node carries (`src/ts/ast/Op.ts`): value,
precedence, associativity, the optional `opString` used for output
(`null` modelled as `none`), `equalParens` and `isComma`. -/
structure OpInfo where
  value : String
  precedence : ℚ
  associativity : Assoc
  opString : Option String
  equalParens : Bool
  isComma : Bool
deriving DecidableEq, Repr

/-- The AST node model (`src/ts/ast/*`).  Leaves: `Name`, `Num`,
`FuncName` (which adds the inverse-function name, `''` when absent).
Trees: `Bop`/`Uop` operator nodes (a `Rel` relation node is a `Bop`
subclass adding only its kind tag, so two-operand relation nodes are
represented by `bop`), `MultiRel` chained relations, `Group` delimited
groups, `FuncApply` named applications and `FuncExp` function-expression
applications (which embed the head expression as a sub-node).

A resolved `FuncApply` node carries the application precedence its
`ApplyOp` token transferred onto it through `Operator`'s `transferIds`
constructor loop (`src/ts/token/Operator.ts` lines 33-37): `3.5` for an
auto-applied function, `1000` for an explicit `ApplyArgument`
application.  (The loop also sets constant `associativity`/`isComma`/
`equalParens`/`opString` own properties that nothing reads on a
`FuncApply` node, so the model keeps only the precedence.) -/
inductive Ast where
  | name (value : String)
  | num (value : ℚ)
  | funcName (value : String) (inverse : String)
  | bop (info : OpInfo) (children : List Ast)
  | uop (info : OpInfo) (children : List Ast)
  | multiRel (value : String) (children : List Ast)
      (relations : List String) (opStrings : List (String × String))
  | group (openStr : String) (closeStr : String) (children : List Ast)
  | funcApply (value : String) (autoApply : Bool) (precedence : ℚ) (children : List Ast)
  | funcExp (exp : Ast) (children : List Ast) (autoApply : Bool) (precedence : ℚ)

namespace Ast

/-- JavaScript `String(n)` for the numeric values the parser produces;
the values arising in the claims are integral, where JavaScript prints
the plain integer. -/
def numToString (v : ℚ) : String :=
  if v.den = 1 then toString v.num else toString v

/-- `'precedence' in node` together with the property's value: `Op`
nodes (`Bop`, `Uop`, and `MultiRel` — whose fresh node keeps the `Op`
prototype default `0`, since `Relation.tree` transfers nothing onto it),
`FuncExp`, and resolved `FuncApply` nodes (whose own precedence the
`ApplyOp`/`ApplyArgument` constructor transferred) have a precedence;
`Name`, `Num`, `FuncName` and `Group` have none (`src/ts/ast/Op.ts`,
`src/ts/ast/Func.ts`, `src/ts/token/Operator.ts` lines 33-37). -/
def precedenceOf : Ast → Option ℚ
  | bop i _ => some i.precedence
  | uop i _ => some i.precedence
  | multiRel _ _ _ _ => some 0
  | funcApply _ _ p _ => some p
  | funcExp _ _ _ p => some p
  | _ => none

/-- `AstObject.addParens` (`src/ts/ast/Node.ts` lines 165-170) applied
to an already-rendered text: wrap in parentheses iff the node has a
defined precedence and it is below the threshold, or equal to it with
`equalParens` set. -/
def addParensStr (text : String) (prec : Option ℚ) (threshold : ℚ)
    (equalParens : Bool) : String :=
  match prec with
  | none => text
  | some p =>
      if p < threshold ∨ (equalParens ∧ p = threshold) then
        "(" ++ text ++ ")"
      else text

/-- `Bop.operatorString`: the configured `opString`, or the value with
spaces around it. -/
def bopOperatorString (i : OpInfo) : String :=
  match i.opString with
  | some s => s
  | none => " " ++ i.value ++ " "

/-- `Op.operatorString` as used by `Uop.toString`:
`opString || value || ''` with JavaScript falsiness of `''`. -/
def uopOperatorString (i : OpInfo) : String :=
  let s := i.opString.getD ""
  if s ≠ "" then s else i.value

/-- `MultiRel.getOp`: look the relation symbol up in `opStrings`,
falling back on the literal symbol. -/
def multiRelOp (opStrings : List (String × String)) (r : String) : String :=
  match opStrings.lookup r with
  | some s => s
  | none => r

/-- Interleave the relation glyphs between the rendered operands
(`MultiRel.toString` collects `child0, op0, child1, op1, child2, ...`
and joins with spaces). -/
def multiRelItems (opStrings : List (String × String)) :
    List String → List String → List String
  | [], _ => []
  | c :: cs, rs =>
      match rs with
      | [] => c :: multiRelItems opStrings cs []
      | r :: rs' => multiRelOp opStrings r :: c :: multiRelItems opStrings cs rs'

mutual

/-- `toString` across the AST node classes (`src/ts/ast/*`):
leaves render their value; `Bop` joins precedence-parenthesized children
with its operator string; `Uop` places the glyph per associativity;
`MultiRel` joins operands and relation glyphs with spaces; `Group`
renders `open`, comma-joined children, `close`; `FuncApply` renders
`name(args)`; `FuncExp` parenthesizes its head by precedence then
renders the arguments. -/
def astToString : Ast → String
  | name v => v
  | num v => numToString v
  | funcName v _ => v
  | bop i children =>
      String.intercalate (bopOperatorString i)
        (mapAddParens children i.precedence i.equalParens)
  | uop i children =>
      let op := uopOperatorString i
      let arg :=
        match children with
        | c :: _ => addParensStr (astToString c) (precedenceOf c) i.precedence i.equalParens
        | [] => ""
      if i.associativity = Assoc.left then op ++ arg else arg ++ op
  | multiRel _ children relations opStrings =>
      match children with
      | [] => ""
      | c :: cs =>
          String.intercalate " "
            (astToString c :: multiRelItems opStrings (mapToString cs) relations)
  | group o c children =>
      o ++ String.intercalate ", " (mapToString children) ++ c
  | funcApply v _ _ children =>
      v ++ "(" ++ String.intercalate ", " (mapToString children) ++ ")"
  | funcExp e children _ p =>
      addParensStr (astToString e) (precedenceOf e) p false ++ "(" ++
        String.intercalate ", " (mapToString children) ++ ")"

/-- Render every node of a child list (`childNodes.join` maps each
child through its `toString`). -/
def mapToString : List Ast → List String
  | [] => []
  | c :: cs => astToString c :: mapToString cs

/-- Render every child with `addParens` applied at the parent's
precedence (`Bop.toString`). -/
def mapAddParens : List Ast → ℚ → Bool → List String
  | [], _, _ => []
  | c :: cs, p, e =>
      addParensStr (astToString c) (precedenceOf c) p e :: mapAddParens cs p e

end

/-- `AstObject.addParens(node, threshold, includeOnEqual)`
(`src/ts/ast/Node.ts` lines 165-170). -/
def addParens (node : Ast) (threshold : ℚ) (equalParens : Bool) : String :=
  addParensStr (astToString node) (precedenceOf node) threshold equalParens

end Ast

/-! ## The stack (`src/ts/Stack.ts`)

`Stack.push` dispatches between the top token's `followedBy` and the new
token's `follows`.  Handlers may mutate the stack while they run (they
pop and re-push through `this.stack`), so they are modelled in
state-passing style: a handler receives the current stack and returns
its answer together with the stack it leaves behind.  The stack is a
list with the top at the head; pushing the returned items in order
therefore prepends their reversal. -/

/-- `Stack.push` (`src/ts/Stack.ts` lines 47-53): with a top present ask
`top.followedBy(token)` first; a non-null answer (JavaScript `||` treats
the empty array as truthy) is the list pushed; otherwise (or with no
top) push the result of `token.follows(this.top())`, where the top is
re-read after `followedBy` ran. -/
def stackPush {T : Type} (fb : T → T → List T → Option (List T) × List T)
    (fl : T → Option T → List T → List T × List T)
    (stack : List T) (token : T) : List T :=
  let r1 :=
    match stack with
    | top :: _ => fb top token stack
    | [] => (none, stack)
  match r1 with
  | (some items, s) => items.reverse ++ s
  | (none, s) =>
      let r2 := fl token s.head? s
      r2.1.reverse ++ r2.2

/-- The base-class `Token.follows` (`src/ts/token/Token.ts` line 352):
push the new token itself, unchanged, touching nothing. -/
def defaultFollows {T : Type} (token : T) (_top : Option T) (stack : List T) :
    List T × List T :=
  ([token], stack)

/-- The base-class `Token.followedBy` (`src/ts/token/Token.ts` line 360):
decline (return null), touching nothing. -/
def defaultFollowedBy {T : Type} (_top _token : T) (stack : List T) :
    Option (List T) × List T :=
  (none, stack)

/-! ## Token-level data for the engine fragment -/

/-- `type` of an operator token: `'binary'`, `'unary'` or `'both'`. -/
inductive OType where
  | binary
  | unary
  | both
deriving DecidableEq, Repr

/-- The fields of an `Operator` token (`src/ts/token/Operator.ts`) that
the modelled fragment uses, together with the `Relation` extras
(`src/ts/token/Relation.ts`): the running `type`/`list` of a chain and
the `combined`/`opStrings` maps.  `info` holds the fields transferred
onto the token's AST node. -/
structure OpTokData where
  info : OpInfo
  otype : OType
  combine : Bool
  negateNumbers : Bool
  isRelation : Bool
  rtype : String
  rlist : List String
  combined : List (String × String)
  opStrings : List (String × String)
deriving DecidableEq, Repr

/-- The fields of a `Delimiter` token (`src/ts/token/Delimiter.ts`). -/
structure DelimData where
  value : String
  close : List String
  allowEmpty : Bool
  removable : Bool
  removePrecedence : ℚ
  isClose : Bool
deriving DecidableEq, Repr

/-- JavaScript `s.charAt(0)` (empty string when `s` is empty). -/
def charAt0 (s : String) : String :=
  match s.data with
  | [] => ""
  | c :: _ => String.mk [c]

/-- `Operator.checkIsHigherPrecedence(prev, top)`
(`src/ts/token/Operator.ts` lines 112-115): the deeper operator `prev`
wins when its precedence is strictly higher, or equal while the incoming
operator (`this`) is left-associative. -/
def checkIsHigherPrecedence (prev inc : OpTokData) : Bool :=
  prev.info.precedence > inc.info.precedence ||
    (prev.info.precedence == inc.info.precedence && inc.info.associativity == Assoc.left)

/-- `Operator.canCombine(prev)` (`src/ts/token/Operator.ts` lines
162-164): same value, incoming token combinable, previous not unary. -/
def operatorCanCombine (inc prev : OpTokData) : Bool :=
  prev.info.value == inc.info.value && inc.combine && prev.otype != OType.unary

/-- `Relation.canCombine(prev)` (`src/ts/token/Relation.ts` lines
43-53): fusion requires the incoming relation's `combine` flag, a
`Relation` below, and (`prev.type === '='`, or `this.value === '='`, or
equal leading characters); on success the incoming symbol is appended to
`prev.list` and a bare-equality chain adopts the new leading character
as its type.  Returns the decision and the updated previous token. -/
def relationCanCombine (inc : OpTokData) (prevIsRelation : Bool)
    (prev : OpTokData) : Bool × OpTokData :=
  let can := inc.combine && prevIsRelation &&
    (prev.rtype == "=" ||
      (inc.info.value == "=" || charAt0 prev.rtype == charAt0 inc.info.value))
  if can then
    (true,
      { prev with
        rlist := prev.rlist ++ [inc.info.value]
        rtype := if prev.rtype == "=" then charAt0 inc.info.value else prev.rtype })
  else (false, prev)

/-- `this.canCombine(prev)` dispatches on the incoming token's class:
a `Relation` uses `Relation.canCombine`, any other operator the base
`Operator.canCombine` (which never mutates `prev`). -/
def tokenCanCombine (inc prev : OpTokData) : Bool × OpTokData :=
  if inc.isRelation then relationCanCombine inc prev.isRelation prev
  else (operatorCanCombine inc prev, prev)

/-! ## Local tree-construction rules -/

/-- `UnaryMinus.tree` (`src/ts/token/OpTokens.ts`): with `negateNumbers`
set, exactly one child, that child a `Num` with value strictly greater
than zero, negate the number in place and return it; otherwise the
ordinary `Uop` node. -/
def uminusTree (negateNumbers : Bool) (info : OpInfo) (ch : List Ast) : Ast :=
  match ch with
  | [Ast.num v] =>
      if negateNumbers ∧ v > 0 then Ast.num (-v) else Ast.uop info ch
  | _ => Ast.uop info ch

/-- `Power.tree` (`src/ts/token/OpTokens.ts`): with function data
present, a `FuncName` first child having a non-empty registered inverse,
and a second child printing as `-1`, return the function-name node with
its value replaced by the inverse; otherwise the ordinary `Bop` power
node.  (`tree()` only runs once both operands are attached, so the
two-child shape is the reachable one.) -/
def powerTree (hasApplyData : Bool) (info : OpInfo) (ch : List Ast) : Ast :=
  match ch with
  | Ast.funcName v inv :: c1 :: rest =>
      if hasApplyData ∧ inv ≠ "" ∧ Ast.astToString c1 = "-1" then
        Ast.funcName inv inv
      else Ast.bop info (Ast.funcName v inv :: c1 :: rest)
  | _ => Ast.bop info ch

/-- `Relation.tree` (`src/ts/token/Relation.ts` lines 58-62): at most
two children give the plain relation node (`super.tree()`, the token's
`Rel` node — a `Bop`); more give a `MultiRel` named by
`combined[type] || type` and carrying the operand list, the symbol list
and the token's `opStrings`. -/
def relTree (d : OpTokData) (ch : List Ast) : Ast :=
  if ch.length ≤ 2 then Ast.bop d.info ch
  else
    Ast.multiRel ((d.combined.lookup d.rtype).getD d.rtype) ch d.rlist d.opStrings

/-- `token.tree()` for an operator token of the fragment: `Relation`
overrides it with `relTree`, unary operators with the `UnaryMinus` sign
fold (plain unary operators have `negateNumbers` unset), binary
operators resolve to their `Bop` node.  (The `Power`/apply overrides
belong to the function subsystem, outside the fragment.) -/
def opTokTree (d : OpTokData) (ch : List Ast) : Ast :=
  if d.isRelation then relTree d ch
  else if d.otype = OType.unary then uminusTree d.negateNumbers d.info ch
  else Ast.bop d.info ch

/-! ## The operational engine fragment

A fuel-indexed model of `Stack.push` specialised to the token classes
whose `followedBy` is the declining default (operands, operators,
delimiters, the `Start` sentinel): dispatch always falls through to the
new token's `follows`.  Tokens that are resolved operands (`Operand`,
`Tree`, `Group` tokens) are one constructor, carrying their AST. -/

/-- The live tokens of the fragment; the stack's top is the list head.
`start` is the `Start` sentinel (a delimiter closed by `_end_` whose
`StackGroup` node accumulates the finished expression). -/
inductive Tok where
  | operand (a : Ast)
  | operator (d : OpTokData) (children : List Ast)
  | delim (d : DelimData) (children : List Ast)
  | start (children : List Ast)

/-- The fatal errors of the modelled fragment (`Parser.error` throws,
discarding the stack, so no partial result survives).  `outOfFuel` marks
exhaustion of the recursion budget and `offModel` a branch outside the
fragment (the function-application subsystem, the `'both'`-type unary
conversion, and stack states the source could only reach by crashing);
neither corresponds to a parse result. -/
inductive PErr where
  | outOfFuel
  | offModel
  | missingOperandBefore (value : String)
  | missingOperandFollowing (value : String)
  | missingOpen (closer : String)
  | missingClose (opener : String)
  | mismatched (opener : String) (closer : String)
  | extraClose (closer : String)
  | emptyDelims
deriving DecidableEq, Repr

/-- `token.isa('Operand')`: only resolved operands qualify (operators,
delimiters and the sentinels are not `Operand` subclasses). -/
def isOperandTok : Tok → Bool
  | Tok.operand _ => true
  | _ => false

/-- `Operator.checkIsLeftUnary(top)` (`src/ts/token/Operator.ts` lines
130-133). -/
def checkIsLeftUnary (d : OpTokData) (top : Tok) : Bool :=
  d.info.associativity == Assoc.left &&
    (d.otype == OType.unary || (d.otype == OType.both && !isOperandTok top))

/-- The children of a tree node (`childNodes`; leaves have none). -/
def astChildren : Ast → List Ast
  | Ast.bop _ ch => ch
  | Ast.uop _ ch => ch
  | Ast.multiRel _ ch _ _ => ch
  | Ast.group _ _ ch => ch
  | Ast.funcApply _ _ _ ch => ch
  | Ast.funcExp _ ch _ _ => ch
  | _ => []

/-- `child instanceof Op && child.isComma` (`src/ts/ast/Group.ts`):
`Op` nodes are `Bop`, `Uop` and `MultiRel`. -/
def astIsCommaOp : Ast → Bool
  | Ast.bop i _ => i.isComma
  | Ast.uop i _ => i.isComma
  | _ => false

/-- `AstObject.append` (`src/ts/ast/Node.ts`): push onto `childNodes`.
On a leaf the property is a getter returning a fresh array, so the push
is silently lost. -/
def astAppendChild (a child : Ast) : Ast :=
  match a with
  | Ast.bop i ch => Ast.bop i (ch ++ [child])
  | Ast.uop i ch => Ast.uop i (ch ++ [child])
  | Ast.multiRel v ch r o => Ast.multiRel v (ch ++ [child]) r o
  | Ast.group o c ch => Ast.group o c (ch ++ [child])
  | Ast.funcApply v au p ch => Ast.funcApply v au p (ch ++ [child])
  | Ast.funcExp e ch au p => Ast.funcExp e (ch ++ [child]) au p
  | leaf => leaf

/-- `Group.append` (`src/ts/ast/Group.ts`): a comma-type `Op` child is
spliced (its children are pushed instead of the node), anything else is
appended as usual. -/
def groupAppend (ch : List Ast) (child : Ast) : List Ast :=
  if astIsCommaOp child then ch ++ astChildren child else ch ++ [child]

/-- `this.stack.top().append(token)` after a pop, for a resolved AST
`a`: operators and the `Start` sentinel append plainly, a delimiter's
`Group` node splices comma lists.  An empty stack would be a crash in
the source (`top()` is `undefined`), marked `offModel`. -/
def appendTop (stack : List Tok) (a : Ast) : Except PErr (List Tok) :=
  match stack with
  | [] => Except.error PErr.offModel
  | Tok.operator p pch :: rest => Except.ok (Tok.operator p (pch ++ [a]) :: rest)
  | Tok.delim dd ch :: rest => Except.ok (Tok.delim dd (groupAppend ch a) :: rest)
  | Tok.start ch :: rest => Except.ok (Tok.start (ch ++ [a]) :: rest)
  | Tok.operand x :: rest => Except.ok (Tok.operand (astAppendChild x a) :: rest)

/-- `instanceof Op` together with the node's precedence, as used by
`Delimiter.canBeRemoved` (`FuncExp` is not an `Op`; a `MultiRel` keeps
the `Op` prototype precedence `0`). -/
def astOpPrecedence : Ast → Option ℚ
  | Ast.bop i _ => some i.precedence
  | Ast.uop i _ => some i.precedence
  | Ast.multiRel _ _ _ _ => some 0
  | _ => none

/-- `Delimiter.canBeRemoved` (`src/ts/token/Delimiter.ts` lines 60-64):
removable, exactly one child, and that child is not an `Op` or is one
binding tighter than `removePrecedence`. -/
def canBeRemoved (dd : DelimData) (ch : List Ast) : Bool :=
  match ch with
  | [c] =>
      dd.removable &&
        (match astOpPrecedence c with
         | none => true
         | some p => p > dd.removePrecedence)
  | _ => false

/-- `Operator.checkOperands` (`src/ts/token/Operator.ts` lines 189-191). -/
def checkOperands (d : OpTokData) (ch : List Ast) : Bool :=
  ch.length ≥ 2 || (d.otype == OType.unary && ch.length == 1)

/-- The implied-multiplication token (`Juxtapose`,
`src/ts/token/Operator.ts` line 232): a combinable binary `*` of
precedence 2 whose `opString` is a space. -/
def juxtaposeTok : OpTokData :=
  ⟨⟨"*", 2, Assoc.left, some " ", false, false⟩,
    OType.binary, true, false, false, "", [], [], []⟩

/-- An engine step: pushing a token, or running the closing cascade a
close delimiter starts (`Delimiter.follows` for a closer). -/
inductive Act where
  | push (tok : Tok)
  | close (closer : DelimData)

/-- One `Stack.push` within the fragment (fuel bounds the synchronous
re-entries; recursion is structural on the fuel so that runs reduce
definitionally).  Our token classes all leave `followedBy` as the
declining default, so dispatch goes to the new token's `follows`.

For `Act.push`:
* operand (`Operand.follows`, `src/ts/token/Operand.ts`): atop another
  operand push a `Juxtapose` then re-push; else push unchanged;
* operator (`Operator.follows`, `src/ts/token/Operator.ts` lines 70-80):
  a forced left-unary pushes the unary form (a `'both'` token would
  build its `unaryClass` — outside the fragment); next the top must be
  an operand; `checkOperator` pops it and, when the operator one deeper
  binds tighter, attaches the operand there, either fusing
  (`canCombine`) or resolving the deeper operator to a `Tree` operand
  and retrying the incoming one; otherwise (the null path) the operand
  becomes the incoming operator's first child and the operator stays
  open — except that a right-associative unary operator resolves at once
  into a `Tree` operand (`checkRightUnary`; for a `'both'` token this
  would build the unary class, outside the fragment);
* delimiter (`Delimiter.follows`): an opener pushes unchanged, a closer
  runs the closing cascade;
* `Start` pushes unchanged.

For `Act.close`, the cascade (`src/ts/token/Delimiter.ts` lines 86-123)
repeatedly asks the top to `group(closer)`:
* a resolved operand pops itself and appends to the new top;
* an open operator checks its operand count (`Operator.group`) and then
  does the same;
* an open delimiter accepting the closer pops itself and pushes either
  its single child (`canBeRemoved`) or its `Group` node, refusing an
  empty body unless allowed; a non-accepting one fails — against the
  `End` sentinel as a missing close, otherwise as mismatched delimiters;
* the `Start` sentinel accepts exactly `_end_` and stops the cascade,
  failing any real closer as a missing open;
* an exhausted stack is the extra-close error after the loop. -/
def engineStep : Nat → List Tok → Act → Except PErr (List Tok)
  | 0, _, _ => Except.error PErr.outOfFuel
  | Nat.succ f, stack, Act.push tok =>
    (match tok with
    | Tok.operand a =>
        match stack with
        | Tok.operand _ :: _ => do
            let s1 ← engineStep f stack (Act.push (Tok.operator juxtaposeTok []))
            engineStep f s1 (Act.push (Tok.operand a))
        | _ => Except.ok (Tok.operand a :: stack)
    | Tok.operator d ch =>
        match stack with
        | [] => Except.error PErr.offModel
        | top :: rest =>
            if checkIsLeftUnary d top then
              if d.otype = OType.unary then Except.ok (Tok.operator d ch :: stack)
              else Except.error PErr.offModel
            else
              match top with
              | Tok.operand a =>
                  match rest with
                  | Tok.operator p pch :: rest2 =>
                      if checkIsHigherPrecedence p d then
                        match tokenCanCombine d p with
                        | (true, p') => Except.ok (Tok.operator p' (pch ++ [a]) :: rest2)
                        | (false, _) => do
                            let s1 ← engineStep f rest2
                              (Act.push (Tok.operand (opTokTree p (pch ++ [a]))))
                            engineStep f s1 (Act.push (Tok.operator d ch))
                      else
                        if d.info.associativity = Assoc.right ∧ d.otype = OType.unary then
                          engineStep f (Tok.operator p pch :: rest2)
                            (Act.push (Tok.operand (opTokTree d (ch ++ [a]))))
                        else if d.info.associativity = Assoc.right ∧ d.otype = OType.both then
                          Except.error PErr.offModel
                        else
                          Except.ok (Tok.operator d (ch ++ [a]) :: Tok.operator p pch :: rest2)
                  | _ =>
                      if d.info.associativity = Assoc.right ∧ d.otype = OType.unary then
                        engineStep f rest (Act.push (Tok.operand (opTokTree d (ch ++ [a]))))
                      else if d.info.associativity = Assoc.right ∧ d.otype = OType.both then
                        Except.error PErr.offModel
                      else
                        Except.ok (Tok.operator d (ch ++ [a]) :: rest)
              | _ => Except.error (PErr.missingOperandBefore d.info.value)
    | Tok.delim dd ch =>
        if dd.isClose then engineStep f stack (Act.close dd)
        else Except.ok (Tok.delim dd ch :: stack)
    | Tok.start ch => Except.ok (Tok.start ch :: stack))
  | Nat.succ f, stack, Act.close closer =>
    match stack with
    | [] => Except.error (PErr.extraClose closer.value)
    | Tok.operand a :: rest => do
        let s1 ← appendTop rest a
        engineStep f s1 (Act.close closer)
    | Tok.operator p pch :: rest =>
        if checkOperands p pch then do
          let s1 ← appendTop rest (opTokTree p pch)
          engineStep f s1 (Act.close closer)
        else Except.error (PErr.missingOperandFollowing p.info.value)
    | Tok.delim dd ch :: rest =>
        if closer.value ∈ dd.close then
          match ch with
          | [] =>
              if dd.allowEmpty then
                engineStep f rest
                  (Act.push (Tok.operand (Ast.group dd.value closer.value [])))
              else Except.error PErr.emptyDelims
          | c :: _ =>
              engineStep f rest
                (Act.push (Tok.operand
                  (if canBeRemoved dd ch then c else Ast.group dd.value closer.value ch)))
        else if closer.value = "_end_" then Except.error (PErr.missingClose dd.value)
        else Except.error (PErr.mismatched dd.value closer.value)
    | Tok.start ch :: rest =>
        if closer.value = "_end_" then Except.ok (Tok.start ch :: rest)
        else Except.error (PErr.missingOpen closer.value)

/-- Pushing a token (see `engineStep`). -/
def pushT (f : Nat) (stack : List Tok) (tok : Tok) : Except PErr (List Tok) :=
  engineStep f stack (Act.push tok)

/-- The closing cascade a close delimiter starts (see `engineStep`). -/
def closeLoop (f : Nat) (stack : List Tok) (closer : DelimData) :
    Except PErr (List Tok) :=
  engineStep f stack (Act.close closer)

/-- The `End` sentinel (`src/ts/Stack.ts` line 86): a close delimiter
with value `_end_`. -/
def endDelim : DelimData := ⟨"_end_", [], false, false, -1, true⟩

/-- `Parser.convert` (`src/ts/Parser.ts` lines 211-245) over an
already-tokenized input: start from a stack holding the `Start`
sentinel, push every token, push `End`, then pop the top and take its
tree — the `Start` sentinel's first accumulated child
(`StackDelimiter.tree`). -/
def runParse (fuel : Nat) (toks : List Tok) : Except PErr Ast := do
  let s1 ← toks.foldlM (fun s t => pushT fuel s t) [Tok.start []]
  let s2 ← pushT fuel s1 (Tok.delim endDelim [])
  match s2 with
  | Tok.start (c :: _) :: _ => Except.ok c
  | _ => Except.error PErr.offModel

/-! ## Concrete token instances

Instances of the catalog's token classes (`src/ts/token/OpTokens.ts`,
`src/ts/token/RelTokens.ts`), as the matcher would construct them.  The
fractional precedences are built with explicit numerator/denominator so
that runs reduce definitionally. -/

/-- The precedence `.25` of the comma (`List`) operator. -/
def prec14 : ℚ := ⟨1, 4, by decide, by decide⟩

/-- The precedence `.75` of relation operators. -/
def prec34 : ℚ := ⟨3, 4, by decide, by decide⟩

/-- The `removePrecedence` `.99` of parentheses. -/
def prec99 : ℚ := ⟨99, 100, by decide, by decide⟩

/-- A `Plus` token (`'+'`: precedence 1, combinable, type `'both'`). -/
def plusToken : OpTokData :=
  ⟨⟨"+", 1, Assoc.left, none, false, false⟩,
    OType.both, true, false, false, "", [], [], []⟩

/-- A `Multiply` token (`'*'`: precedence 2, combinable). -/
def multiplyToken : OpTokData :=
  ⟨⟨"*", 2, Assoc.left, none, false, false⟩,
    OType.binary, true, false, false, "", [], [], []⟩

/-- A `Power` token (`'^'`: precedence 4, right-associative, `opString`
`'^'`). -/
def powerToken : OpTokData :=
  ⟨⟨"^", 4, Assoc.right, some "^", false, false⟩,
    OType.binary, false, false, false, "", [], [], []⟩

/-- A `List` (comma) token (`','`: precedence .25, combinable, comma,
`opString` `', '`). -/
def commaToken : OpTokData :=
  ⟨⟨",", prec14, Assoc.left, some ", ", false, true⟩,
    OType.binary, true, false, false, "", [], [], []⟩

/-- A `'<'` token of `StrictInequalities` (`Relation` defaults:
precedence .75, combinable; `list` starts as `['<']`, `type` as
`'<'`). -/
def ltToken : OpTokData :=
  ⟨⟨"<", prec34, Assoc.left, none, false, false⟩,
    OType.binary, true, false, true, "<", ["<"], [], []⟩

/-- A `'<='` token of `WeakInequalities` (its AST `opString` comes from
the class `opStrings`, its `combined` map sends `'<='`/`'>='` to the
strict names). -/
def leToken : OpTokData :=
  ⟨⟨"<=", prec34, Assoc.left, some " ≤ ", false, false⟩,
    OType.binary, true, false, true, "<=", ["<="],
    [("<=", "<"), (">=", ">")], [("<=", " ≤ "), (">=", " ≥ ")]⟩

/-- An `'='` token of `Equals` (`Relation` defaults; `list` `['=']`,
`type` `'='`). -/
def eqToken : OpTokData :=
  ⟨⟨"=", prec34, Assoc.left, none, false, false⟩,
    OType.binary, true, false, true, "=", ["="], [], []⟩

/-- A `UnaryMinus` token (`'uminus'`: precedence 3, `negateNumbers`;
`Uop` nodes carry `equalParens`). -/
def uminusToken : OpTokData :=
  ⟨⟨"-", 3, Assoc.left, none, true, false⟩,
    OType.unary, false, true, false, "", [], [], []⟩

/-- An opening `Parens` token (`'('`: closed by `')'`, removable above
precedence .99). -/
def openParen : DelimData := ⟨"(", [")"], false, true, prec99, false⟩

/-- A closing `Parens` token (`')'`: same class; `checkIfClose` marks it
a closer because its own close set contains its value). -/
def closeParen : DelimData := ⟨")", [")"], false, true, prec99, true⟩

/-! ## The literal-name comparator of the pattern compiler -/

/-- The comparator `getNamePattern` sorts multi-character literal names
with (`src/ts/Parser.ts` lines 394-396):
`(a, b) => (a.length < b.length ? 1 : a.length > b.length ? -1 : a < b ? -1 : a > b ? -1 : 0)`.
Note that both equal-length branches return `-1`.  For the registered
names (ASCII/BMP), JavaScript `length` and `<` agree with Lean's
character count and lexicographic order. -/
def nameCmp (a b : String) : Int :=
  if a.length < b.length then 1
  else if a.length > b.length then -1
  else if a < b then -1
  else if a > b then -1
  else 0

/-! ## JSON (de)serialization (`src/ts/ast/Node.ts`, `src/ts/Parser.ts`)

`toJSON` emits a plain record of `kind` plus the node's fields and
recursively serialized children (and, for `FuncExp`, the embedded head
expression).  The source omits fields whose value equals the class
prototype's default and restores them from the prototype on
deserialization; the model serializes the resolved field values
directly, which is the same semantic content.  `fromJSON` dispatches on
`kind` (an unregistered kind throws, modelled as `none`) and
reconstructs the children — and an embedded sub-node — before the
parent; inputs outside `toJSON`'s image with required fields missing are
`none` in the model where the source would assemble a corrupt node. -/

/-- The serialized record: `kind`, the `value` (a string or a number),
the operator fields, the `MultiRel`, `Group`, `FuncName` and
`FuncApply`/`FuncExp` extras, the serialized `childNodes`, and the
serialized `exp` head of a `FuncExp`. -/
inductive Json where
  | mk (kind : String) (value : Option (String ⊕ ℚ)) (info : Option OpInfo)
      (relations : Option (List String)) (jopStrings : Option (List (String × String)))
      (openStr : Option String) (closeStr : Option String)
      (inverse : Option String) (autoApply : Option Bool) (precedence : Option ℚ)
      (childNodes : List Json) (exp : Option Json)

/-- The `value` as a string (`''` otherwise, the `AstObject` default). -/
def jsonStrValue : Option (String ⊕ ℚ) → String
  | some (Sum.inl s) => s
  | _ => ""

/-- The `FuncExp` prototype precedence `3.5`. -/
def applyPrec : ℚ := ⟨7, 2, by decide, by decide⟩

mutual

/-- `toJSON` (`src/ts/ast/Node.ts` lines 183-188 and 250-252, plus the
`FuncExp` override): kind, fields, recursively serialized children and
embedded sub-node. -/
def astToJSON : Ast → Json
  | Ast.name v =>
      Json.mk "Name" (some (Sum.inl v)) none none none none none none none none [] none
  | Ast.num v =>
      Json.mk "Num" (some (Sum.inr v)) none none none none none none none none [] none
  | Ast.funcName v inv =>
      Json.mk "FuncName" (some (Sum.inl v)) none none none none none (some inv) none none [] none
  | Ast.bop i ch =>
      Json.mk "Bop" (some (Sum.inl i.value)) (some i) none none none none none none none
        (mapToJSON ch) none
  | Ast.uop i ch =>
      Json.mk "Uop" (some (Sum.inl i.value)) (some i) none none none none none none none
        (mapToJSON ch) none
  | Ast.multiRel v ch rels ops =>
      Json.mk "MultiRel" (some (Sum.inl v)) none (some rels) (some ops) none none none none none
        (mapToJSON ch) none
  | Ast.group o c ch =>
      Json.mk "Group" (some (Sum.inl "")) none none none (some o) (some c) none none none
        (mapToJSON ch) none
  | Ast.funcApply v au p ch =>
      Json.mk "FuncApply" (some (Sum.inl v)) none none none none none none (some au) (some p)
        (mapToJSON ch) none
  | Ast.funcExp e ch au p =>
      Json.mk "FuncExp" (some (Sum.inl "")) none none none none none none (some au) (some p)
        (mapToJSON ch) (some (astToJSON e))

/-- Serialize a child list (`childNodes.map((child) => child.toJSON())`). -/
def mapToJSON : List Ast → List Json
  | [] => []
  | c :: cs => astToJSON c :: mapToJSON cs

end

mutual

/-- `Parser.fromJSON` (`src/ts/Parser.ts` lines 411-416) with the class
`fromJSON` overrides (`src/ts/ast/Node.ts` lines 135-137 and 206-211,
`src/ts/ast/Func.ts` lines 72-77): dispatch on `kind`; leaves rebuild
from their value, tree kinds rebuild their children first — and a
`FuncExp` additionally its embedded head — then assemble the node,
fields missing from the record falling back to the prototype defaults
(a `FuncApply` precedence has no prototype fallback — it exists only as
the own property the record carries — so it is required). -/
def astFromJSON : Json → Option Ast
  | Json.mk kind value info rels ops o c inv au p children exp =>
      if kind = "Name" then some (Ast.name (jsonStrValue value))
      else if kind = "Num" then
        match value with
        | some (Sum.inr q) => some (Ast.num q)
        | _ => none
      else if kind = "FuncName" then
        some (Ast.funcName (jsonStrValue value) (inv.getD ""))
      else if kind = "Bop" then
        match mapFromJSON children with
        | some ch =>
            let v := jsonStrValue value
            let i := info.getD ⟨v, 0, Assoc.left, none, false, false⟩
            some (Ast.bop { i with value := v } ch)
        | none => none
      else if kind = "Uop" then
        match mapFromJSON children with
        | some ch =>
            let v := jsonStrValue value
            let i := info.getD ⟨v, 0, Assoc.left, none, false, false⟩
            some (Ast.uop { i with value := v } ch)
        | none => none
      else if kind = "MultiRel" then
        match mapFromJSON children with
        | some ch =>
            some (Ast.multiRel (jsonStrValue value) ch (rels.getD []) (ops.getD []))
        | none => none
      else if kind = "Group" then
        match mapFromJSON children with
        | some ch => some (Ast.group (o.getD "") (c.getD "") ch)
        | none => none
      else if kind = "FuncApply" then
        match mapFromJSON children with
        | some ch =>
            match p with
            | some pr => some (Ast.funcApply (jsonStrValue value) (au.getD false) pr ch)
            | none => none
        | none => none
      else if kind = "FuncExp" then
        match exp with
        | some j =>
            match astFromJSON j, mapFromJSON children with
            | some e, some ch => some (Ast.funcExp e ch (au.getD false) (p.getD applyPrec))
            | _, _ => none
        | none => none
      else none

/-- Deserialize a child list
(`json.childNodes.map((child) => parser.fromJSON(child))`). -/
def mapFromJSON : List Json → Option (List Ast)
  | [] => some []
  | j :: js =>
      match astFromJSON j, mapFromJSON js with
      | some a, some as' => some (a :: as')
      | _, _ => none

end

set_option maxHeartbeats 1000000 in
mutual

/-- Serializing any AST node and deserializing the result reproduces the
node (children, and a `FuncExp` head, are rebuilt first by structural
recursion). -/
theorem astFromJSON_astToJSON : ∀ a : Ast, astFromJSON (astToJSON a) = some a
  | Ast.name v => by simp [astToJSON, astFromJSON, jsonStrValue]
  | Ast.num v => by simp [astToJSON, astFromJSON]
  | Ast.funcName v inv => by simp [astToJSON, astFromJSON, jsonStrValue]
  | Ast.bop i ch => by
      simp [astToJSON, astFromJSON, jsonStrValue, mapFromJSON_mapToJSON ch]
  | Ast.uop i ch => by
      simp [astToJSON, astFromJSON, jsonStrValue, mapFromJSON_mapToJSON ch]
  | Ast.multiRel v ch rels ops => by
      simp [astToJSON, astFromJSON, jsonStrValue, mapFromJSON_mapToJSON ch]
  | Ast.group o c ch => by
      simp [astToJSON, astFromJSON, mapFromJSON_mapToJSON ch]
  | Ast.funcApply v au p ch => by
      simp [astToJSON, astFromJSON, jsonStrValue, mapFromJSON_mapToJSON ch]
  | Ast.funcExp e ch au p => by
      simp [astToJSON, astFromJSON, jsonStrValue, mapFromJSON_mapToJSON ch,
        astFromJSON_astToJSON e]

/-- Serializing then deserializing a child list reproduces it. -/
theorem mapFromJSON_mapToJSON : ∀ l : List Ast, mapFromJSON (mapToJSON l) = some l
  | [] => by simp [mapToJSON, mapFromJSON]
  | c :: cs => by
      simp [mapToJSON, mapFromJSON, astFromJSON_astToJSON c, mapFromJSON_mapToJSON cs]

end

/-! ## The claims -/

/-- C1: On every `Stack.push` of a new token, the top token's
`followedBy(new)` is consulted first when a top exists, and a non-null
result is the complete list of items pushed, in order, on top of
whatever stack the handler left — so when the handler has removed the
old top (the protocol's replacement convention), the old top survives
exactly when it appears explicitly in that list.  When `followedBy`
returns null, or the stack is empty, the result of `new.follows(top)` is
pushed instead; with the default handlers (`follows` returning the token
itself, `followedBy` declining) a push adds exactly the new token,
unchanged, on top. -/
theorem stack_push_dispatch {T : Type}
    (fb : T → T → List T → Option (List T) × List T)
    (fl : T → Option T → List T → List T × List T) :
    (∀ top rest token items s, fb top token (top :: rest) = (some items, s) →
        stackPush fb fl (top :: rest) token = items.reverse ++ s ∧
        (top ∉ s → (top ∈ stackPush fb fl (top :: rest) token ↔ top ∈ items))) ∧
    (∀ top rest token s, fb top token (top :: rest) = (none, s) →
        stackPush fb fl (top :: rest) token =
          (fl token s.head? s).1.reverse ++ (fl token s.head? s).2) ∧
    (∀ token, stackPush fb fl [] token =
        (fl token none []).1.reverse ++ (fl token none []).2) ∧
    (∀ (stack : List T) token,
        stackPush defaultFollowedBy defaultFollows stack token = token :: stack) := by
  refine ⟨?_, ?_, ?_, ?_⟩
  · intro top rest token items s h
    have he : stackPush fb fl (top :: rest) token = items.reverse ++ s := by
      simp [stackPush, h]
    refine ⟨he, ?_⟩
    intro hns
    rw [he]
    simp [List.mem_append, hns]
  · intro top rest token s h
    simp [stackPush, h]
  · intro token
    simp [stackPush]
  · intro stack token
    cases stack <;> simp [stackPush, defaultFollows, defaultFollowedBy]

/-- Witness for C1: a handler that accepts replaces the stack with its
returned items; a declining handler falls through to `follows`; the
defaults push the token unchanged. -/
theorem stack_push_dispatch_witness :
    stackPush (fun (t tok : Nat) s => if t = 1 then (some [tok, t], s.drop 1) else (none, s))
      defaultFollows [1, 2] 5 = [1, 5, 2] ∧
    stackPush (fun (t tok : Nat) s => if t = 1 then (some [tok, t], s.drop 1) else (none, s))
      defaultFollows [2, 3] 5 = [5, 2, 3] ∧
    stackPush (T := Nat) defaultFollowedBy defaultFollows [3] 7 = [7, 3] := by
  have h := stack_push_dispatch
    (fun (t tok : Nat) s => if t = 1 then (some [tok, t], s.drop 1) else (none, s))
    defaultFollows
  refine ⟨?_, ?_, h.2.2.2 [3] 7⟩
  · have := (h.1 1 [2] 5 [5, 1] [2] (by simp)).1
    simpa using this
  · have := h.2.1 2 [3] 5 [2, 3] (by simp)
    simpa [defaultFollows] using this

/-- C2: When an operator in binary position is pushed above an operand
with an operator one deeper, the deeper operator wins (`reduce`) exactly
when its precedence is strictly higher, or equal with the incoming
operator left-associative.  On a loss the incoming operator takes the
operand as first child and stays open (so at an equal-precedence tie a
right-associative incoming operator leaves the deeper operator
untouched); on a win with the same combinable operator family the
deeper operator's node is extended in place to an n-ary node (no new
node is opened); on a win without fusion the deeper operator is resolved
with the operand attached and the incoming operator retries against the
exposed top. -/
theorem operator_precedence_resolution
    (fuel : Nat) (d : OpTokData) (ch : List Ast) (a : Ast) (p : OpTokData)
    (pch : List Ast) (rest : List Tok)
    (hbin : d.otype = OType.binary ∨
      (d.otype = OType.both ∧ d.info.associativity = Assoc.left)) :
    (checkIsHigherPrecedence p d = true ↔
      (p.info.precedence > d.info.precedence ∨
        (p.info.precedence = d.info.precedence ∧ d.info.associativity = Assoc.left))) ∧
    (checkIsHigherPrecedence p d = false →
      pushT (fuel + 1) (Tok.operand a :: Tok.operator p pch :: rest) (Tok.operator d ch) =
        Except.ok (Tok.operator d (ch ++ [a]) :: Tok.operator p pch :: rest)) ∧
    (∀ p', checkIsHigherPrecedence p d = true → tokenCanCombine d p = (true, p') →
      pushT (fuel + 1) (Tok.operand a :: Tok.operator p pch :: rest) (Tok.operator d ch) =
        Except.ok (Tok.operator p' (pch ++ [a]) :: rest)) ∧
    (checkIsHigherPrecedence p d = true → (tokenCanCombine d p).1 = false →
      pushT (fuel + 1) (Tok.operand a :: Tok.operator p pch :: rest) (Tok.operator d ch) =
        (pushT fuel rest (Tok.operand (opTokTree p (pch ++ [a]))) >>= fun s1 =>
          pushT fuel s1 (Tok.operator d ch))) ∧
    (d.isRelation = false →
      ((tokenCanCombine d p).1 = true ↔
        (p.info.value = d.info.value ∧ d.combine = true ∧ p.otype ≠ OType.unary))) := by
  have hlu : checkIsLeftUnary d (Tok.operand a) = false := by
    rcases hbin with hb | ⟨hb, _⟩ <;> simp [checkIsLeftUnary, hb, isOperandTok]
  refine ⟨?_, ?_, ?_, ?_, ?_⟩
  · simp [checkIsHigherPrecedence, Bool.or_eq_true, Bool.and_eq_true, beq_iff_eq,
      decide_eq_true_eq]
  · intro h
    rcases hbin with hb | ⟨hb, ha⟩
    · simp [pushT, engineStep, hlu, h, hb]
    · simp [pushT, engineStep, hlu, h, hb, ha]
  · intro p' h hc
    simp [pushT, engineStep, hlu, h, hc]
  · intro h hc
    rcases hcc : tokenCanCombine d p with ⟨b, p2⟩
    rw [hcc] at hc
    simp at hc
    subst hc
    simp [pushT, engineStep, hlu, h, hcc]
  · intro hrel
    simp [tokenCanCombine, hrel, operatorCanCombine, Bool.and_eq_true, beq_iff_eq,
      bne_iff_ne, and_assoc]

/-- Witness for C2: `+` after `3 + _` and operand `4` fuses into one
n-ary `+` node's token; right-associative `^` at equal precedence
leaves the deeper `^` untouched and stays open; `+` above `3 * _` and
operand `4` first resolves the tighter-binding `*` into its node and
then retries. -/
theorem operator_precedence_resolution_witness :
    pushT 11 [Tok.operand (Ast.num 4), Tok.operator plusToken [Ast.num 3], Tok.start []]
        (Tok.operator plusToken []) =
      Except.ok [Tok.operator plusToken [Ast.num 3, Ast.num 4], Tok.start []] ∧
    pushT 11 [Tok.operand (Ast.name "x"), Tok.operator powerToken [Ast.num 2], Tok.start []]
        (Tok.operator powerToken []) =
      Except.ok [Tok.operator powerToken [Ast.name "x"],
        Tok.operator powerToken [Ast.num 2], Tok.start []] ∧
    pushT 11 [Tok.operand (Ast.num 4), Tok.operator multiplyToken [Ast.num 3], Tok.start []]
        (Tok.operator plusToken []) =
      Except.ok [Tok.operator plusToken
        [Ast.bop ⟨"*", 2, Assoc.left, none, false, false⟩ [Ast.num 3, Ast.num 4]],
        Tok.start []] := by
  have h1 := operator_precedence_resolution 10 plusToken [] (Ast.num 4) plusToken
    [Ast.num 3] [Tok.start []] (Or.inr ⟨rfl, rfl⟩)
  have h2 := operator_precedence_resolution 10 powerToken [] (Ast.name "x") powerToken
    [Ast.num 2] [Tok.start []] (Or.inl rfl)
  have h3 := operator_precedence_resolution 10 plusToken [] (Ast.num 4) multiplyToken
    [Ast.num 3] [Tok.start []] (Or.inr ⟨rfl, rfl⟩)
  refine ⟨?_, ?_, ?_⟩
  · simpa using h1.2.2.1 plusToken (by decide) (by decide)
  · simpa using h2.2.1 (by decide)
  · have hc := h3.2.2.2.1 (by decide) (by decide)
    rw [hc]
    rfl

/-- Counterexample to C3: a resolved function application is not
precedence-free — the `ApplyOp` constructor transfers its precedence
`3.5` onto the `FuncApply` node (`1000` for an explicit
`ApplyArgument`; the repository README shows `precedence: 3.5` on the
parsed `sin -x^2` output) — so `'precedence' in node` holds and
`addParens` wraps the application at any higher threshold, here the
auto-applied `sin(x)` at the `'^'` threshold 4, contradicting the
claim's never-wrapped conjunct. -/
theorem addParens_wraps_funcApply_counterexample :
    Ast.precedenceOf (Ast.funcApply "sin" true applyPrec [Ast.name "x"]) =
      some applyPrec ∧
    Ast.addParens (Ast.funcApply "sin" true applyPrec [Ast.name "x"]) 4 false =
      "(sin(x))" := by
  refine ⟨rfl, by rfl⟩

/-- C3 (amended): `addParens(node, threshold, includeOnEqual)` wraps the
node's rendering in parentheses exactly when the node has a defined
precedence and it is strictly below the threshold, or `includeOnEqual`
is set and it equals the threshold; names and numbers have no precedence
property and are never wrapped, but a resolved function application
carries the application precedence its `ApplyOp`/`ApplyArgument` token
transferred at construction (`3.5` auto-applied, `1000` explicit) and is
wrapped when that is below the threshold.  In particular the tokens of
`(3+4)*2` parse to a `*` node whose first child is the `+` node, and it
stringifies with parentheses around the sum. -/
theorem addParens_characterization (node : Ast) (threshold : ℚ) (includeOnEqual : Bool) :
    (∀ p, Ast.precedenceOf node = some p →
      ((p < threshold ∨ (includeOnEqual = true ∧ p = threshold)) →
        Ast.addParens node threshold includeOnEqual =
          "(" ++ Ast.astToString node ++ ")") ∧
      (¬(p < threshold ∨ (includeOnEqual = true ∧ p = threshold)) →
        Ast.addParens node threshold includeOnEqual = Ast.astToString node)) ∧
    (Ast.precedenceOf node = none →
      Ast.addParens node threshold includeOnEqual = Ast.astToString node) ∧
    (∀ v, Ast.precedenceOf (Ast.name v) = none) ∧
    (∀ q, Ast.precedenceOf (Ast.num q) = none) ∧
    (∀ v au p ch, Ast.precedenceOf (Ast.funcApply v au p ch) = some p) ∧
    runParse 20 [Tok.delim openParen [], Tok.operand (Ast.num 3), Tok.operator plusToken [],
        Tok.operand (Ast.num 4), Tok.delim closeParen [], Tok.operator multiplyToken [],
        Tok.operand (Ast.num 2)] =
      Except.ok (Ast.bop ⟨"*", 2, Assoc.left, none, false, false⟩
        [Ast.bop ⟨"+", 1, Assoc.left, none, false, false⟩ [Ast.num 3, Ast.num 4],
          Ast.num 2]) ∧
    Ast.astToString (Ast.bop ⟨"*", 2, Assoc.left, none, false, false⟩
        [Ast.bop ⟨"+", 1, Assoc.left, none, false, false⟩ [Ast.num 3, Ast.num 4],
          Ast.num 2]) = "(3 + 4) * 2" := by
  refine ⟨?_, ?_, fun v => rfl, fun q => rfl, fun v au p ch => rfl, by rfl, by rfl⟩
  · intro p hp
    constructor
    · intro hc
      simp [Ast.addParens, Ast.addParensStr, hp, hc]
    · intro hc
      simp [Ast.addParens, Ast.addParensStr, hp, hc]
  · intro hp
    simp [Ast.addParens, Ast.addParensStr, hp]

/-- Witness for C3 (amended): the `+` node (precedence 1) is wrapped at
threshold 2, a name at the same threshold is left bare even with
`includeOnEqual`, and an auto-applied function application (transferred
precedence 3.5) is left bare below its precedence but wrapped above
it. -/
theorem addParens_characterization_witness :
    Ast.addParens (Ast.bop ⟨"+", 1, Assoc.left, none, false, false⟩
      [Ast.num 3, Ast.num 4]) 2 false = "(3 + 4)" ∧
    Ast.addParens (Ast.name "x") 2 true = "x" ∧
    Ast.addParens (Ast.funcApply "sin" true applyPrec [Ast.name "x"]) 2 false =
      "sin(x)" ∧
    Ast.addParens (Ast.funcApply "sin" true applyPrec [Ast.name "x"]) 4 false =
      "(sin(x))" := by
  refine ⟨?_, ?_, ?_, ?_⟩
  · have h := ((addParens_characterization
      (Ast.bop ⟨"+", 1, Assoc.left, none, false, false⟩ [Ast.num 3, Ast.num 4])
      2 false).1 1 rfl).1 (Or.inl (by norm_num))
    rw [h]
    rfl
  · have h := (addParens_characterization (Ast.name "x") 2 true).2.1 rfl
    rw [h]
    rfl
  · have h := ((addParens_characterization
      (Ast.funcApply "sin" true applyPrec [Ast.name "x"]) 2 false).1 applyPrec rfl).2
      (by decide)
    rw [h]
    rfl
  · have h := ((addParens_characterization
      (Ast.funcApply "sin" true applyPrec [Ast.name "x"]) 4 false).1 applyPrec rfl).1
      (Or.inl (by decide))
    rw [h]
    rfl

/-- C4: serializing any AST with `toJSON` and deserializing the record
with `fromJSON` succeeds and reproduces the tree exactly — in particular
its `toString` is unchanged; the deserializer rebuilds children and the
embedded `FuncExp` head sub-node (structurally) before assembling the
parent. -/
theorem json_roundtrip_preserves_toString (a : Ast) :
    astFromJSON (astToJSON a) = some a ∧
    (astFromJSON (astToJSON a)).map Ast.astToString = some (Ast.astToString a) := by
  refine ⟨astFromJSON_astToJSON a, ?_⟩
  rw [astFromJSON_astToJSON a]
  rfl

/-- The fusion condition exactly as claim C5 words it, for comparison
with the source's `Relation.canCombine`: fusion enabled for the new
relation and (the chain's type is bare `'='`, or the new symbol's
leading character equals the chain's type). -/
def claimC5Fusion (inc : OpTokData) (prevIsRelation : Bool) (prev : OpTokData) : Bool :=
  inc.combine && prevIsRelation &&
    (prev.rtype == "=" || charAt0 inc.info.value == prev.rtype)

/-- Counterexample to C5: an incoming `'='` above a `'<'` chain — the
code fuses (`this.value === '='` is a third disjunct the claim omits,
appending `'='` to the chain), while the claim's condition rejects it
(the chain's type is not `'='` and the leading character `'='` differs
from the chain's type `'<'`). -/
theorem relation_fusion_counterexample :
    (relationCanCombine eqToken true ltToken).1 = true ∧
    claimC5Fusion eqToken true ltToken = false ∧
    (relationCanCombine eqToken true ltToken).2.rlist = ["<", "="] := by
  refine ⟨by rfl, by rfl, by rfl⟩

/-- C5 (amended): a new relation above an unresolved relation fuses iff
its `combine` flag is set, a relation is below, and the chain's type is
bare `'='`, or the new symbol is `'='`, or the new symbol's leading
character equals the chain's type's leading character; fusion appends
the new symbol to the chain's list (a bare-equality chain also adopts
the new leading character as its type) and otherwise the chain state is
untouched. -/
theorem relation_fusion_amended (inc : OpTokData) (prevIsRel : Bool) (prev : OpTokData) :
    ((relationCanCombine inc prevIsRel prev).1 = true ↔
      (inc.combine = true ∧ prevIsRel = true ∧
        (prev.rtype = "=" ∨ inc.info.value = "=" ∨
          charAt0 prev.rtype = charAt0 inc.info.value))) ∧
    ((relationCanCombine inc prevIsRel prev).1 = true →
      (relationCanCombine inc prevIsRel prev).2 =
        { prev with
            rlist := prev.rlist ++ [inc.info.value]
            rtype := if prev.rtype = "=" then charAt0 inc.info.value else prev.rtype }) ∧
    ((relationCanCombine inc prevIsRel prev).1 = false →
      (relationCanCombine inc prevIsRel prev).2 = prev) := by
  have hc : (relationCanCombine inc prevIsRel prev).1 =
      (inc.combine && prevIsRel &&
        (prev.rtype == "=" ||
          (inc.info.value == "=" || charAt0 prev.rtype == charAt0 inc.info.value))) := by
    rw [relationCanCombine]
    split <;> simp_all
  refine ⟨?_, ?_, ?_⟩
  · rw [hc]
    simp [Bool.and_eq_true, Bool.or_eq_true, beq_iff_eq, and_assoc]
  · intro h
    rw [hc] at h
    rw [relationCanCombine, if_pos h]
    simp [beq_iff_eq]
  · intro h
    rw [hc] at h
    rw [relationCanCombine, if_neg (by simp [h])]

/-- Witness for C5 (amended): `'<='` fuses with a `'<'` chain (equal
leading characters), appending its symbol. -/
theorem relation_fusion_amended_witness :
    (relationCanCombine leToken true ltToken).1 = true ∧
    (relationCanCombine leToken true ltToken).2 =
      { ltToken with rlist := ["<", "<="] } := by
  have h := relation_fusion_amended leToken true ltToken
  have hf : (relationCanCombine leToken true ltToken).1 = true :=
    h.1.mpr ⟨rfl, rfl, Or.inr (Or.inr rfl)⟩
  refine ⟨hf, ?_⟩
  have := h.2.1 hf
  rw [this]
  rfl

/-- C6: a resolved relation chain with more than two operands builds one
`MultiRel` node carrying the full operand list and the parallel symbol
list, while at most two operands give the plain two-child relation
node; the tokens of `x < y <= z` parse to one `MultiRel` with operands
`[x, y, z]` and symbols `['<', '<=']`, stringifying back to
`x < y <= z`. -/
theorem relation_chain_tree (d : OpTokData) (ch : List Ast) :
    (2 < ch.length →
      relTree d ch =
        Ast.multiRel ((d.combined.lookup d.rtype).getD d.rtype) ch d.rlist d.opStrings) ∧
    (ch.length ≤ 2 → relTree d ch = Ast.bop d.info ch) ∧
    runParse 20 [Tok.operand (Ast.name "x"), Tok.operator ltToken [],
        Tok.operand (Ast.name "y"), Tok.operator leToken [], Tok.operand (Ast.name "z")] =
      Except.ok (Ast.multiRel "<" [Ast.name "x", Ast.name "y", Ast.name "z"]
        ["<", "<="] []) ∧
    Ast.astToString (Ast.multiRel "<" [Ast.name "x", Ast.name "y", Ast.name "z"]
        ["<", "<="] []) = "x < y <= z" := by
  refine ⟨?_, ?_, by rfl, by rfl⟩
  · intro h
    rw [relTree, if_neg (by omega)]
  · intro h
    rw [relTree, if_pos h]

/-- Witness for C6: the fused `'<'` chain over three operands resolves
to the `MultiRel` node. -/
theorem relation_chain_tree_witness :
    relTree { ltToken with rlist := ["<", "<="] }
        [Ast.name "x", Ast.name "y", Ast.name "z"] =
      Ast.multiRel "<" [Ast.name "x", Ast.name "y", Ast.name "z"] ["<", "<="] [] := by
  have h := (relation_chain_tree { ltToken with rlist := ["<", "<="] }
    [Ast.name "x", Ast.name "y", Ast.name "z"]).1 (by decide)
  rw [h]
  rfl

/-- C7: evaluating the literal-name sort comparator of `getNamePattern`
at the equal-length names `'aa'`/`'ab'`: it returns `-1` in both
directions (its `a > b` branch yields `-1` instead of `1`), although
`'aa'` is lexicographically smaller — so the comparator is inconsistent
and does not establish the lexicographic order the specification
describes for equal-length literal names. -/
theorem name_comparator_not_lexicographic :
    nameCmp "ab" "aa" = -1 ∧ nameCmp "aa" "ab" = -1 ∧ "aa" < "ab" := by
  refine ⟨?_, ?_, ?_⟩ <;> (simp [nameCmp]; decide)

/-- C8: closing repeatedly asks the stack to match: a real closer
reaching the `Start` sentinel is a missing-open error, the `End`
sentinel reaching an unclosed open delimiter is a missing-close error,
and an open delimiter whose accepted-closer set excludes a real closer
is a mismatched-delimiters error; the tokens of `(x,y` fail with the
missing-close (unterminated) error and a bare `)` fails with the
missing-open (extra close) error — in each case an error, never an
AST, is returned. -/
theorem delimiter_close_errors (fuel : Nat) (closer : DelimData) (dd : DelimData)
    (ch : List Ast) (rest : List Tok) (sch : List Ast) :
    (closer.value ≠ "_end_" →
      closeLoop (fuel + 1) (Tok.start sch :: rest) closer =
        Except.error (PErr.missingOpen closer.value)) ∧
    ("_end_" ∉ dd.close →
      closeLoop (fuel + 1) (Tok.delim dd ch :: rest) endDelim =
        Except.error (PErr.missingClose dd.value)) ∧
    (closer.value ∉ dd.close → closer.value ≠ "_end_" →
      closeLoop (fuel + 1) (Tok.delim dd ch :: rest) closer =
        Except.error (PErr.mismatched dd.value closer.value)) ∧
    runParse 20 [Tok.delim openParen [], Tok.operand (Ast.name "x"),
        Tok.operator commaToken [], Tok.operand (Ast.name "y")] =
      Except.error (PErr.missingClose "(") ∧
    runParse 20 [Tok.delim closeParen []] =
      Except.error (PErr.missingOpen ")") := by
  refine ⟨?_, ?_, ?_, by rfl, by rfl⟩
  · intro h
    simp [closeLoop, engineStep, h]
  · intro h
    simp [closeLoop, engineStep, endDelim, h]
  · intro h1 h2
    simp [closeLoop, engineStep, h1, h2]

/-- Witness for C8: a bare `)` against `Start` is a missing open, `End`
against an unclosed `(` is a missing close, and `]` against `(` is
mismatched. -/
theorem delimiter_close_errors_witness :
    closeLoop 5 [Tok.start []] closeParen = Except.error (PErr.missingOpen ")") ∧
    closeLoop 5 [Tok.delim openParen [Ast.name "x"]] endDelim =
      Except.error (PErr.missingClose "(") ∧
    closeLoop 5 [Tok.delim openParen [Ast.name "x"]] ⟨"]", ["]"], false, false, -1, true⟩ =
      Except.error (PErr.mismatched "(" "]") := by
  have h := delimiter_close_errors 4 closeParen openParen [Ast.name "x"] [] []
  have h2 := delimiter_close_errors 4 ⟨"]", ["]"], false, false, -1, true⟩ openParen
    [Ast.name "x"] [] []
  exact ⟨h.1 (by decide), h.2.1 (by decide), h2.2.2.1 (by decide) (by decide)⟩

/-- C9: a power token carrying a function-application descriptor whose
first child is a named-function node with a non-empty registered inverse
and whose exponent stringifies to `-1` resolves to the function-name
node with its value replaced by the inverse (no power node is built); in
every other two-operand case it resolves to the ordinary power node. -/
theorem power_inverse_rewrite (hasApplyData : Bool) (info : OpInfo)
    (v inv : String) (c1 : Ast) (rest : List Ast) :
    (inv ≠ "" → Ast.astToString c1 = "-1" →
      powerTree true info (Ast.funcName v inv :: c1 :: rest) = Ast.funcName inv inv) ∧
    (¬(hasApplyData = true ∧ inv ≠ "" ∧ Ast.astToString c1 = "-1") →
      powerTree hasApplyData info (Ast.funcName v inv :: c1 :: rest) =
        Ast.bop info (Ast.funcName v inv :: c1 :: rest)) ∧
    (∀ c0 c1' rest', (∀ v' inv', c0 ≠ Ast.funcName v' inv') →
      powerTree hasApplyData info (c0 :: c1' :: rest') =
        Ast.bop info (c0 :: c1' :: rest')) := by
  refine ⟨?_, ?_, ?_⟩
  · intro h1 h2
    simp [powerTree, h1, h2]
  · intro h
    simp only [powerTree]
    rw [if_neg h]
  · intro c0 c1' rest' h
    cases c0 <;> first
      | rfl
      | exact absurd rfl (h _ _)

/-- Witness for C9: `sin` (inverse `asin`) raised to the literal `-1`
rewrites to `asin` when the descriptor is present, and builds the power
node when it is not. -/
theorem power_inverse_rewrite_witness :
    powerTree true ⟨"^", 4, Assoc.right, some "^", false, false⟩
        [Ast.funcName "sin" "asin", Ast.num (-1)] =
      Ast.funcName "asin" "asin" ∧
    powerTree false ⟨"^", 4, Assoc.right, some "^", false, false⟩
        [Ast.funcName "sin" "asin", Ast.num (-1)] =
      Ast.bop ⟨"^", 4, Assoc.right, some "^", false, false⟩
        [Ast.funcName "sin" "asin", Ast.num (-1)] := by
  have h := power_inverse_rewrite true ⟨"^", 4, Assoc.right, some "^", false, false⟩
    "sin" "asin" (Ast.num (-1)) []
  have h2 := power_inverse_rewrite false ⟨"^", 4, Assoc.right, some "^", false, false⟩
    "sin" "asin" (Ast.num (-1)) []
  exact ⟨h.1 (by decide) (by rfl), h2.2.1 (by simp)⟩

/-- C10: the unary-minus sign fold fires only when `negateNumbers` is
set, the token has exactly one child, the child is a `Num`, and its
value is strictly positive — then the number is negated in place and
returned; in every other case, a zero-valued operand included, the
ordinary unary-operator node with the unchanged child is returned. -/
theorem uminus_sign_fold_rule (negateNumbers : Bool) (info : OpInfo) (ch : List Ast)
    (v : ℚ) :
    (0 < v → uminusTree true info [Ast.num v] = Ast.num (-v)) ∧
    (¬(negateNumbers = true ∧ ∃ w, ch = [Ast.num w] ∧ 0 < w) →
      uminusTree negateNumbers info ch = Ast.uop info ch) ∧
    uminusTree negateNumbers info [Ast.num 0] = Ast.uop info [Ast.num 0] := by
  refine ⟨?_, ?_, ?_⟩
  · intro h
    simp [uminusTree, h]
  · intro h
    rcases ch with _ | ⟨c0, _ | ⟨c1, tl⟩⟩
    · rfl
    · cases c0 <;> try rfl
      next w =>
        simp only [uminusTree]
        rw [if_neg]
        intro hc
        exact h ⟨hc.1, w, rfl, hc.2⟩
    · cases c0 <;> rfl
  · simp [uminusTree]

/-- Witness for C10: `uminus` over the number `2` folds to `-2`; over
the already-negative `-5` it builds the ordinary unary node. -/
theorem uminus_sign_fold_rule_witness :
    uminusTree true ⟨"-", 3, Assoc.left, none, true, false⟩ [Ast.num 2] =
      Ast.num (-2) ∧
    uminusTree true ⟨"-", 3, Assoc.left, none, true, false⟩ [Ast.num (-5)] =
      Ast.uop ⟨"-", 3, Assoc.left, none, true, false⟩ [Ast.num (-5)] := by
  have h := uminus_sign_fold_rule true ⟨"-", 3, Assoc.left, none, true, false⟩
    [Ast.num (-5)] (2 : ℚ)
  exact ⟨h.1 (by norm_num), h.2.1 (by simp)⟩
